import Mathlib

/-!
Verification of the pure text-analysis tools of the LinkedIn agent demos:
the length classifier, hashtag recommender, engagement scorer, formatting
validator and naive reflow formatter. Python strings are modelled as lists
of unicode code points (`Str`); `str.lower`, `str.strip` and `str.split`
are modelled on the ASCII whitespace and letter ranges, which covers every
constant the programs use.
-/

/-- A Python str, modelled as its list of code points. -/
abbrev Str := List Char

/-- The ASCII whitespace characters recognised by Python str.strip and
str.split. -/
def isWs (c : Char) : Bool :=
  c == ' ' || c == '\t' || c == '\n' || c == '\r' || c == '\x0B' || c == '\x0C'

/-- All whitespace characters removed. -/
def dropWs (l : Str) : Str := l.filter (fun c => !isWs c)

/-- Python str.lower, modelled on ASCII letters via Char.toLower. -/
def lowerStr (s : String) : String := String.mk (s.data.map Char.toLower)

/-- The needle is a prefix of the haystack. -/
def hasPrefixStr : Str → Str → Bool
  | [], _ => true
  | _ :: _, [] => false
  | c :: n, d :: h => c == d && hasPrefixStr n h

/-- Python substring test: the needle occurs contiguously in the haystack. -/
def containsStr (needle : Str) : Str → Bool
  | [] => needle.isEmpty
  | d :: h => hasPrefixStr needle (d :: h) || containsStr needle h

/-- Python `needle in hay` on str values. -/
def pyIn (needle hay : String) : Bool := containsStr needle.data hay.data

/-- Python str.strip: drop leading and trailing whitespace. -/
def pyStrip (l : Str) : Str :=
  ((l.dropWhile isWs).reverse.dropWhile isWs).reverse

/-- Worker for `pyWords`: `cur` is the word currently being accumulated. -/
def wordsAux (cur : Str) : Str → List Str
  | [] => if cur = [] then [] else [cur]
  | c :: l =>
    if isWs c then
      if cur = [] then wordsAux [] l else cur :: wordsAux [] l
    else wordsAux (cur ++ [c]) l

/-- Python str.split with no separator: split on whitespace runs, dropping
empty pieces. -/
def pyWords (l : Str) : List Str := wordsAux [] l

/-- Python sep.flatten on char lists. -/
def joinWith (sep : Str) : List Str → Str
  | [] => []
  | [x] => x
  | x :: y :: t => x ++ sep ++ joinWith sep (y :: t)

/-- Python s.split with separator a single newline; empty pieces are kept,
and the empty string yields one empty piece. -/
def splitNl : Str → List Str
  | [] => [[]]
  | c :: l =>
    if c = '\n' then [] :: splitNl l
    else
      match splitNl l with
      | [] => [[c]]
      | p :: ps => (c :: p) :: ps

/-- Python s.replace p (p + newline): insert a newline after every
occurrence of the character p. -/
def replaceAfter (p : Char) : Str → Str
  | [] => []
  | c :: l => if c = p then c :: '\n' :: replaceAfter p l else c :: replaceAfter p l

/-- Worker for `dedupFirst`; `seen` records the keys already emitted. -/
def dedupFirstAux {α : Type} [DecidableEq α] (seen : List α) : List α → List α
  | [] => []
  | x :: l => if x ∈ seen then dedupFirstAux seen l else x :: dedupFirstAux (x :: seen) l

/-- Python list(dict.fromkeys(l)): deduplication keeping the first
occurrence of each element, in order. -/
def dedupFirst {α : Type} [DecidableEq α] (l : List α) : List α := dedupFirstAux [] l

/-- Python sep.flatten on str values. -/
def joinWithStr (sep : String) (l : List String) : String :=
  String.mk (joinWith sep.data (l.map String.data))

theorem dedupFirstAux_sub {α : Type} [DecidableEq α] :
    ∀ (l seen : List α) (x : α), x ∈ dedupFirstAux seen l → x ∈ l ∧ x ∉ seen := by
  intro l
  induction l with
  | nil => intro seen x hx; simp [dedupFirstAux] at hx
  | cons a l ih =>
    intro seen x hx
    by_cases ha : a ∈ seen
    · simp only [dedupFirstAux, if_pos ha] at hx
      rcases ih seen x hx with ⟨h1, h2⟩
      exact ⟨List.mem_cons_of_mem _ h1, h2⟩
    · simp only [dedupFirstAux, if_neg ha] at hx
      rcases List.mem_cons.mp hx with h | hx
      · exact ⟨by simp [h], by simpa [h] using ha⟩
      · rcases ih _ x hx with ⟨h1, h2⟩
        refine ⟨List.mem_cons_of_mem _ h1, fun hs => h2 (List.mem_cons_of_mem _ hs)⟩

theorem dedupFirstAux_nodup {α : Type} [DecidableEq α] :
    ∀ (l seen : List α), (dedupFirstAux seen l).Nodup := by
  intro l
  induction l with
  | nil => intro seen; simp [dedupFirstAux]
  | cons a l ih =>
    intro seen
    by_cases ha : a ∈ seen
    · simpa [dedupFirstAux, if_pos ha] using ih seen
    · simp only [dedupFirstAux, if_neg ha, List.nodup_cons]
      refine ⟨fun hmem => ?_, ih _⟩
      rcases dedupFirstAux_sub _ _ _ hmem with ⟨_, h2⟩
      exact h2 (List.mem_cons_self _ _)

theorem dedupFirst_nodup {α : Type} [DecidableEq α] (l : List α) : (dedupFirst l).Nodup :=
  dedupFirstAux_nodup l []

theorem dedupFirstAux_length_le {α : Type} [DecidableEq α] :
    ∀ (l seen : List α), (dedupFirstAux seen l).length ≤ l.length := by
  intro l
  induction l with
  | nil => intro seen; simp [dedupFirstAux]
  | cons a l ih =>
    intro seen
    by_cases ha : a ∈ seen
    · simp only [dedupFirstAux, if_pos ha, List.length_cons]
      exact Nat.le_succ_of_le (ih seen)
    · simp only [dedupFirstAux, if_neg ha, List.length_cons]
      exact Nat.succ_le_succ (ih _)

theorem dedupFirst_length_le {α : Type} [DecidableEq α] (l : List α) :
    (dedupFirst l).length ≤ l.length :=
  dedupFirstAux_length_le l []

theorem dedupFirstAux_mem {α : Type} [DecidableEq α] :
    ∀ (l seen : List α) (x : α), x ∈ l → x ∉ seen → x ∈ dedupFirstAux seen l := by
  intro l
  induction l with
  | nil => intro seen x hx; simp at hx
  | cons a l ih =>
    intro seen x hx hs
    by_cases ha : a ∈ seen
    · simp only [dedupFirstAux, if_pos ha]
      rcases List.mem_cons.mp hx with h | h
      · exact absurd (h ▸ ha) hs
      · exact ih seen x h hs
    · simp only [dedupFirstAux, if_neg ha]
      rcases List.mem_cons.mp hx with h | h
      · exact h ▸ List.mem_cons_self _ _
      · by_cases hxa : x = a
        · exact hxa ▸ List.mem_cons_self _ _
        · exact List.mem_cons_of_mem _ (ih _ x h (by simp [hxa, hs]))

theorem dedupFirst_mem {α : Type} [DecidableEq α] (l : List α) (x : α) (hx : x ∈ l) :
    x ∈ dedupFirst l :=
  dedupFirstAux_mem l [] x hx (by simp)

theorem take_of_len_le {α : Type} : ∀ (l : List α) (n : Nat), l.length ≤ n → l.take n = l := by
  intro l
  induction l with
  | nil => intro n _; simp
  | cons a l ih =>
    intro n hn
    cases n with
    | zero => simp at hn
    | succ m => simpa using ih m (Nat.le_of_succ_le_succ hn)

theorem wordsAux_nil (cur : Str) : wordsAux cur [] = if cur = [] then [] else [cur] := rfl

theorem wordsAux_cons_ws {c : Char} (hc : isWs c = true) (cur : Str) (l : Str) :
    wordsAux cur (c :: l) = if cur = [] then wordsAux [] l else cur :: wordsAux [] l := by
  simp [wordsAux, hc]

theorem wordsAux_cons_nws {c : Char} (hc : isWs c = false) (cur : Str) (l : Str) :
    wordsAux cur (c :: l) = wordsAux (cur ++ [c]) l := by
  simp [wordsAux, hc]

theorem wordsAux_append_ws {c : Char} (hc : isWs c = true) :
    ∀ (a : Str) (cur b : Str),
      wordsAux cur (a ++ c :: b) = wordsAux cur a ++ wordsAux [] b := by
  intro a
  induction a with
  | nil =>
    intro cur b
    rw [List.nil_append, wordsAux_cons_ws hc, wordsAux_nil]
    by_cases h : cur = [] <;> simp [h]
  | cons d a ih =>
    intro cur b
    cases hd : isWs d with
    | true =>
      rw [List.cons_append, wordsAux_cons_ws hd, wordsAux_cons_ws hd]
      by_cases h : cur = [] <;> simp [h, ih]
    | false =>
      rw [List.cons_append, wordsAux_cons_nws hd, wordsAux_cons_nws hd, ih]

theorem wordsAux_all_ws :
    ∀ (t : Str), (∀ c ∈ t, isWs c = true) →
      ∀ cur, wordsAux cur t = if cur = [] then [] else [cur] := by
  intro t
  induction t with
  | nil => intro _ cur; rfl
  | cons c t ih =>
    intro h cur
    have hc : isWs c = true := h c (List.mem_cons_self _ _)
    have ht : ∀ x ∈ t, isWs x = true := fun x hx => h x (List.mem_cons_of_mem _ hx)
    rw [wordsAux_cons_ws hc]
    by_cases hcur : cur = [] <;> simp [hcur, ih ht]

theorem wordsAux_append_all_ws {t : Str} (ht : ∀ c ∈ t, isWs c = true) :
    ∀ (x cur : Str), wordsAux cur (x ++ t) = wordsAux cur x := by
  intro x
  induction x with
  | nil => intro cur; rw [List.nil_append, wordsAux_nil, wordsAux_all_ws t ht]
  | cons d x ih =>
    intro cur
    cases hd : isWs d with
    | true =>
      rw [List.cons_append, wordsAux_cons_ws hd, wordsAux_cons_ws hd]
      by_cases h : cur = [] <;> simp [h, ih]
    | false =>
      rw [List.cons_append, wordsAux_cons_nws hd, wordsAux_cons_nws hd, ih]

theorem wordsAux_dropWhile : ∀ (l : Str), wordsAux [] (l.dropWhile isWs) = wordsAux [] l := by
  intro l
  induction l with
  | nil => rfl
  | cons c l ih =>
    cases hc : isWs c with
    | true => rw [List.dropWhile_cons_of_pos (by simp [hc]), wordsAux_cons_ws hc]; simpa using ih
    | false => rw [List.dropWhile_cons_of_neg (by simp [hc])]

theorem pyWords_strip (l : Str) : pyWords (pyStrip l) = pyWords l := by
  unfold pyWords pyStrip
  set u := l.dropWhile isWs with hu
  have hdecomp : u = (u.reverse.dropWhile isWs).reverse ++ (u.reverse.takeWhile isWs).reverse := by
    have h1 : u.reverse.takeWhile isWs ++ u.reverse.dropWhile isWs = u.reverse :=
      List.takeWhile_append_dropWhile isWs u.reverse
    calc u = u.reverse.reverse := by rw [List.reverse_reverse]
    _ = (u.reverse.takeWhile isWs ++ u.reverse.dropWhile isWs).reverse := by rw [h1]
    _ = (u.reverse.dropWhile isWs).reverse ++ (u.reverse.takeWhile isWs).reverse := by
        rw [List.reverse_append]
  have hws : ∀ c ∈ (u.reverse.takeWhile isWs).reverse, isWs c = true := by
    intro c hc
    exact List.mem_takeWhile_imp (List.mem_reverse.mp hc)
  calc wordsAux [] (u.reverse.dropWhile isWs).reverse
      = wordsAux [] ((u.reverse.dropWhile isWs).reverse ++ (u.reverse.takeWhile isWs).reverse) := by
        rw [wordsAux_append_all_ws hws]
  _ = wordsAux [] u := by rw [← hdecomp]
  _ = wordsAux [] l := by rw [hu, wordsAux_dropWhile]

theorem wordsAux_all_nws :
    ∀ (w : Str), (∀ c ∈ w, isWs c = false) →
      ∀ cur, wordsAux cur w = if cur ++ w = [] then [] else [cur ++ w] := by
  intro w
  induction w with
  | nil => intro _ cur; simp [wordsAux_nil]
  | cons c w ih =>
    intro h cur
    have hc : isWs c = false := h c (List.mem_cons_self _ _)
    have hw : ∀ x ∈ w, isWs x = false := fun x hx => h x (List.mem_cons_of_mem _ hx)
    rw [wordsAux_cons_nws hc, ih hw]
    simp

theorem pyWords_single {w : Str} (h : ∀ c ∈ w, isWs c = false) (hne : w ≠ []) :
    pyWords w = [w] := by
  unfold pyWords
  rw [wordsAux_all_nws w h]
  simp [hne]

theorem dropWs_cons (c : Char) (l : Str) :
    dropWs (c :: l) = if isWs c then dropWs l else c :: dropWs l := by
  cases hc : isWs c <;> simp [dropWs, List.filter_cons, hc]

theorem wordsAux_join : ∀ (l : Str) (cur : Str), (wordsAux cur l).flatten = cur ++ dropWs l := by
  intro l
  induction l with
  | nil =>
    intro cur
    rw [wordsAux_nil]
    by_cases h : cur = [] <;> simp [h, dropWs]
  | cons c l ih =>
    intro cur
    cases hc : isWs c with
    | true =>
      rw [wordsAux_cons_ws hc, dropWs_cons]
      by_cases h : cur = [] <;> simp [h, hc, ih]
    | false =>
      rw [wordsAux_cons_nws hc, dropWs_cons, ih]
      simp [hc]

theorem pyWords_join (l : Str) : (pyWords l).flatten = dropWs l := by
  simpa using wordsAux_join l []

theorem wordsAux_mem :
    ∀ (l cur : Str), (∀ c ∈ cur, isWs c = false) →
      ∀ w ∈ wordsAux cur l, w ≠ [] ∧ ∀ c ∈ w, isWs c = false := by
  intro l
  induction l with
  | nil =>
    intro cur hcur w hw
    rw [wordsAux_nil] at hw
    by_cases h : cur = []
    · simp [h] at hw
    · simp only [if_neg h, List.mem_singleton] at hw
      exact hw ▸ ⟨h, hcur⟩
  | cons c l ih =>
    intro cur hcur w hw
    cases hc : isWs c with
    | true =>
      rw [wordsAux_cons_ws hc] at hw
      by_cases h : cur = []
      · rw [if_pos h] at hw
        exact ih [] (by simp) w hw
      · rw [if_neg h] at hw
        rcases List.mem_cons.mp hw with h1 | h1
        · exact h1 ▸ ⟨h, hcur⟩
        · exact ih [] (by simp) w h1
    | false =>
      rw [wordsAux_cons_nws hc] at hw
      refine ih (cur ++ [c]) ?_ w hw
      intro x hx
      rcases List.mem_append.mp hx with h1 | h1
      · exact hcur x h1
      · simpa [List.mem_singleton.mp h1] using hc

theorem pyWords_mem {l : Str} {w : Str} (hw : w ∈ pyWords l) :
    w ≠ [] ∧ ∀ c ∈ w, isWs c = false :=
  wordsAux_mem l [] (by simp) w hw

theorem joinWith_cons_ne (sep : Str) (x : Str) {l : List Str} (h : l ≠ []) :
    joinWith sep (x :: l) = x ++ sep ++ joinWith sep l := by
  cases l with
  | nil => exact absurd rfl h
  | cons y t => rfl

theorem joinWith_ne_nil (sep : Str) {x : Str} {l : List Str} (hx : x ≠ []) :
    joinWith sep (x :: l) ≠ [] := by
  cases l with
  | nil => simpa [joinWith]
  | cons y t => simp [joinWith, hx]

theorem pyWords_append_ws {c : Char} (hc : isWs c = true) (a b : Str) :
    pyWords (a ++ c :: b) = pyWords a ++ pyWords b :=
  wordsAux_append_ws hc a [] b

theorem pyWords_joinWith_ws {c : Char} (hc : isWs c = true) :
    ∀ (ls : List Str), pyWords (joinWith [c] ls) = (ls.map pyWords).flatten := by
  intro ls
  induction ls with
  | nil => simp [joinWith, pyWords, wordsAux]
  | cons x t ih =>
    cases t with
    | nil => simp [joinWith]
    | cons y t2 =>
      rw [joinWith_cons_ne _ _ (by simp)]
      have h2 : x ++ [c] ++ joinWith [c] (y :: t2) = x ++ c :: joinWith [c] (y :: t2) := by simp
      rw [h2, pyWords_append_ws hc, ih]
      simp

theorem pyWords_joinWith_words {ws : List Str}
    (h : ∀ w ∈ ws, w ≠ [] ∧ ∀ c ∈ w, isWs c = false) :
    pyWords (joinWith [' '] ws) = ws := by
  rw [pyWords_joinWith_ws (by rfl)]
  induction ws with
  | nil => rfl
  | cons w t ih =>
    have hw := h w (List.mem_cons_self _ _)
    have ht : ∀ x ∈ t, x ≠ [] ∧ ∀ c ∈ x, isWs c = false :=
      fun x hx => h x (List.mem_cons_of_mem _ hx)
    simp only [List.map_cons, List.flatten_cons, ih ht]
    rw [pyWords_single hw.2 hw.1]
    rfl

theorem splitNl_ne_nil : ∀ (l : Str), splitNl l ≠ [] := by
  intro l
  cases l with
  | nil => simp [splitNl]
  | cons c t =>
    by_cases hc : c = '\n'
    · simp [splitNl, hc]
    · simp only [splitNl, if_neg hc]
      cases h : splitNl t <;> simp

theorem joinWith_splitNl : ∀ (l : Str), joinWith ['\n'] (splitNl l) = l := by
  intro l
  induction l with
  | nil => rfl
  | cons c t ih =>
    by_cases hc : c = '\n'
    · subst hc
      simp only [splitNl, if_pos rfl, eq_self_iff_true, if_true]
      rw [joinWith_cons_ne _ _ (splitNl_ne_nil t), ih]
      rfl
    · simp only [splitNl, if_neg hc]
      rcases h : splitNl t with _ | ⟨p, ps⟩
      · exact absurd h (splitNl_ne_nil t)
      · rw [h] at ih
        cases ps with
        | nil => simpa [joinWith] using ih
        | cons q qs =>
          rw [joinWith_cons_ne _ _ (by simp)] at ih ⊢
          simpa using ih

theorem dropWs_replaceAfter (p : Char) (hp : isWs p = false) :
    ∀ (l : Str), dropWs (replaceAfter p l) = dropWs l := by
  intro l
  induction l with
  | nil => rfl
  | cons c t ih =>
    by_cases hc : c = p
    · subst hc
      simp only [replaceAfter, if_pos rfl, eq_self_iff_true, if_true]
      rw [dropWs_cons, dropWs_cons, dropWs_cons, ih]
      simp only [hp, if_false, Bool.false_eq_true]
      rw [if_pos (by decide)]
    · simp only [replaceAfter, if_neg hc]
      rw [dropWs_cons, dropWs_cons, ih]

namespace WebUiServer

/-- Greedy word-accumulation loop of format_linkedin_post_correctly: walks
the word list keeping the running line in cur; returns the flushed lines
and the final running line. -/
def greedyLoop : List Str → List Str → List Str × List Str
  | cur, [] => ([], cur)
  | cur, w :: ws =>
    let cur1 := cur ++ [w]
    if (joinWith [' '] cur1).length > 15 then
      if cur1.length > 1 then
        let r := greedyLoop [w] ws
        ((joinWith [' '] cur1.dropLast) :: r.1, r.2)
      else
        let r := greedyLoop [] ws
        (w :: r.1, r.2)
    else
      greedyLoop cur1 ws

/-- Per-sentence body of the loop of format_linkedin_post_correctly,
applied to the already-stripped sentence. -/
def processFragment (sentence : Str) : List Str :=
  if sentence ≠ [] ∧ sentence.length > 15 then
    let words := pyWords sentence
    let r := greedyLoop [] words
    r.1 ++ (if r.2 ≠ [] then [joinWith [' '] r.2] else [])
  else if sentence ≠ [] then [sentence] else []

/-- The sentence-splitting preprocessing of format_linkedin_post_correctly:
replace each of '.', '!', '?' by itself plus a newline. -/
def punctuated (content : Str) : Str :=
  replaceAfter '?' (replaceAfter '!' (replaceAfter '.' content))

/-- The list named lines in format_linkedin_post_correctly. -/
def reflowLines (content : Str) : List Str :=
  ((splitNl (punctuated content)).map (fun s => processFragment (pyStrip s))).flatten

/-- The spacing pass of format_linkedin_post_correctly: a blank line after
every second line, except after the very last line. -/
def addSpacingAux (total : Nat) : Nat → List Str → List Str
  | _, [] => []
  | i, l :: ls =>
    if (i + 1) % 2 = 0 ∧ i < total - 1 then l :: [] :: addSpacingAux total (i + 1) ls
    else l :: addSpacingAux total (i + 1) ls

/-- The list named formatted_lines in format_linkedin_post_correctly
(the FormattedLines output of the Reflow Formatter). -/
def format_linkedin_post_lines (content : String) : List Str :=
  addSpacingAux (reflowLines content.data).length 0 (reflowLines content.data)

/-- The full return value of format_linkedin_post_correctly. -/
def format_linkedin_post_correctly (content : String) : String :=
  String.mk ("CORRECTLY FORMATTED VERSION:\n\n".data
    ++ joinWith ['\n'] (format_linkedin_post_lines content))

end WebUiServer

namespace WebUiServer

theorem greedyLoop_words :
    ∀ (input cur : List Str),
      (∀ w ∈ cur ++ input, w ≠ [] ∧ ∀ c ∈ w, isWs c = false) →
      ((greedyLoop cur input).1.map pyWords).flatten ++ (greedyLoop cur input).2
        = cur ++ input := by
  intro input
  induction input with
  | nil => intro cur _; simp [greedyLoop]
  | cons w ws ih =>
    intro cur h
    have hw : w ≠ [] ∧ ∀ c ∈ w, isWs c = false := h w (by simp)
    have hcur : ∀ x ∈ cur, x ≠ [] ∧ ∀ c ∈ x, isWs c = false :=
      fun x hx => h x (by simp [hx])
    have hws : ∀ x ∈ ws, x ≠ [] ∧ ∀ c ∈ x, isWs c = false :=
      fun x hx => h x (by simp [hx])
    have hdl : (cur ++ [w]).dropLast = cur := by simp
    by_cases h1 : (joinWith [' '] (cur ++ [w])).length > 15
    · by_cases h2 : (cur ++ [w]).length > 1
      · have heq : greedyLoop cur (w :: ws)
            = ((joinWith [' '] (cur ++ [w]).dropLast) :: (greedyLoop [w] ws).1,
               (greedyLoop [w] ws).2) := by
          simp only [greedyLoop]
          rw [if_pos h1, if_pos h2]
        rw [heq, hdl]
        have hrec := ih [w] (by intro x hx; rcases List.mem_cons.mp hx with h3 | h3
                                · exact h3 ▸ hw
                                · exact hws x h3)
        simp only [List.map_cons, List.flatten_cons]
        rw [pyWords_joinWith_words hcur]
        rw [List.append_assoc, hrec]
        simp
      · have heq : greedyLoop cur (w :: ws)
            = (w :: (greedyLoop [] ws).1, (greedyLoop [] ws).2) := by
          simp only [greedyLoop]
          rw [if_pos h1, if_neg h2]
        have hcurnil : cur = [] := by
          rcases cur with _ | ⟨x, t⟩
          · rfl
          · exfalso; apply h2; simp
        rw [heq]
        have hrec := ih [] (by intro x hx; exact hws x (by simpa using hx))
        simp only [List.map_cons, List.flatten_cons]
        rw [pyWords_single hw.2 hw.1]
        rw [List.append_assoc, hrec]
        simp [hcurnil]
    · have heq : greedyLoop cur (w :: ws) = greedyLoop (cur ++ [w]) ws := by
        simp only [greedyLoop]
        rw [if_neg h1]
      rw [heq]
      have hrec := ih (cur ++ [w]) (by
        intro x hx
        rcases List.mem_append.mp hx with h3 | h3
        · rcases List.mem_append.mp h3 with h4 | h4
          · exact hcur x h4
          · exact (List.mem_singleton.mp h4) ▸ hw
        · exact hws x h3)
      rw [hrec]
      simp

theorem greedyLoop_shape :
    ∀ (input cur : List Str),
      (∀ w ∈ cur ++ input, w ≠ [] ∧ ∀ c ∈ w, isWs c = false) →
      (cur.length ≤ 1 ∨ (joinWith [' '] cur).length ≤ 15) →
      (∀ l ∈ (greedyLoop cur input).1,
          l ≠ [] ∧ (l.length ≤ 15 ∨ ∀ c ∈ l, isWs c = false)) ∧
      ((greedyLoop cur input).2.length ≤ 1
        ∨ (joinWith [' '] (greedyLoop cur input).2).length ≤ 15) ∧
      (∀ x ∈ (greedyLoop cur input).2, x ∈ cur ++ input) := by
  intro input
  induction input with
  | nil =>
    intro cur _ hinv
    refine ⟨by intro l hl; simp [greedyLoop] at hl, by simpa [greedyLoop] using hinv, ?_⟩
    intro x hx
    simpa [greedyLoop] using hx
  | cons w ws ih =>
    intro cur h hinv
    have hw : w ≠ [] ∧ ∀ c ∈ w, isWs c = false := h w (by simp)
    have hcur : ∀ x ∈ cur, x ≠ [] ∧ ∀ c ∈ x, isWs c = false :=
      fun x hx => h x (by simp [hx])
    have hws : ∀ x ∈ ws, x ≠ [] ∧ ∀ c ∈ x, isWs c = false :=
      fun x hx => h x (by simp [hx])
    have hdl : (cur ++ [w]).dropLast = cur := by simp
    by_cases h1 : (joinWith [' '] (cur ++ [w])).length > 15
    · by_cases h2 : (cur ++ [w]).length > 1
      · have heq : greedyLoop cur (w :: ws)
            = ((joinWith [' '] (cur ++ [w]).dropLast) :: (greedyLoop [w] ws).1,
               (greedyLoop [w] ws).2) := by
          simp only [greedyLoop]
          rw [if_pos h1, if_pos h2]
        have hcurne : cur ≠ [] := by
          intro hnil
          rw [hnil] at h2
          simp at h2
        have hrec := ih [w]
          (by intro x hx; rcases List.mem_cons.mp hx with h3 | h3
              · exact h3 ▸ hw
              · exact hws x h3)
          (Or.inl (by simp))
        rw [heq]
        refine ⟨?_, by simpa using hrec.2.1, ?_⟩
        · intro l hl
          rcases List.mem_cons.mp hl with h3 | h3
          · subst h3
            rw [hdl]
            constructor
            · rcases cur with _ | ⟨x, t⟩
              · exact absurd rfl hcurne
              · exact joinWith_ne_nil _ (hcur x (by simp)).1
            · rcases hinv with hlen | hle
              · right
                have : cur.length = 1 := Nat.le_antisymm hlen
                    (by rcases cur with _ | ⟨x, t⟩
                        · exact absurd rfl hcurne
                        · simp)
                rcases List.length_eq_one.mp this with ⟨a, ha⟩
                subst ha
                intro c hc
                exact (hcur a (by simp)).2 c (by simpa [joinWith] using hc)
              · exact Or.inl hle
          · exact hrec.1 l h3
        · intro x hx
          have := hrec.2.2 x (by simpa using hx)
          rcases List.mem_cons.mp this with h3 | h3
          · simp [h3]
          · have h4 : x ∈ ws := by simpa using h3
            simp [h4]
      · have heq : greedyLoop cur (w :: ws)
            = (w :: (greedyLoop [] ws).1, (greedyLoop [] ws).2) := by
          simp only [greedyLoop]
          rw [if_pos h1, if_neg h2]
        have hrec := ih [] (by intro x hx; exact hws x (by simpa using hx))
          (Or.inl (by simp))
        rw [heq]
        refine ⟨?_, by simpa using hrec.2.1, ?_⟩
        · intro l hl
          rcases List.mem_cons.mp hl with h3 | h3
          · exact h3 ▸ ⟨hw.1, Or.inr hw.2⟩
          · exact hrec.1 l h3
        · intro x hx
          have := hrec.2.2 x (by simpa using hx)
          simp at this
          simp [this]
    · have heq : greedyLoop cur (w :: ws) = greedyLoop (cur ++ [w]) ws := by
        simp only [greedyLoop]
        rw [if_neg h1]
      have hall : ∀ x ∈ (cur ++ [w]) ++ ws, x ≠ [] ∧ ∀ c ∈ x, isWs c = false := by
        intro x hx
        rcases List.mem_append.mp hx with h3 | h3
        · rcases List.mem_append.mp h3 with h4 | h4
          · exact hcur x h4
          · exact (List.mem_singleton.mp h4) ▸ hw
        · exact hws x h3
      have hrec := ih (cur ++ [w]) hall (Or.inr (Nat.le_of_not_lt h1))
      rw [heq]
      refine ⟨hrec.1, hrec.2.1, ?_⟩
      intro x hx
      have := hrec.2.2 x hx
      simpa using this

end WebUiServer

namespace WebUiServer

theorem processFragment_words (s : Str) :
    ((processFragment s).map pyWords).flatten = pyWords s := by
  by_cases hcond : s ≠ [] ∧ s.length > 15
  · have hprops : ∀ w ∈ ([] : List Str) ++ pyWords s, w ≠ [] ∧ ∀ c ∈ w, isWs c = false := by
      intro w hw
      exact pyWords_mem (by simpa using hw)
    have hwords := greedyLoop_words (pyWords s) [] hprops
    have hshape := greedyLoop_shape (pyWords s) [] hprops (Or.inl (by simp))
    simp only [processFragment, if_pos hcond]
    by_cases hfin : (greedyLoop [] (pyWords s)).2 ≠ []
    · rw [if_pos hfin]
      rw [List.map_append, List.flatten_append]
      have hfinprops : ∀ w ∈ (greedyLoop [] (pyWords s)).2,
          w ≠ [] ∧ ∀ c ∈ w, isWs c = false := by
        intro w hw
        exact pyWords_mem (by simpa using hshape.2.2 w hw)
      simp only [List.map_cons, List.map_nil, List.flatten_cons, List.flatten_nil]
      rw [pyWords_joinWith_words hfinprops]
      simpa using hwords
    · rw [if_neg hfin]
      have hfin2 : (greedyLoop [] (pyWords s)).2 = [] := by
        by_contra hne
        exact hfin hne
      rw [hfin2] at hwords
      simpa using hwords
  · by_cases hne : s ≠ []
    · simp only [processFragment, if_neg hcond, if_pos hne]
      simp
    · have hnil : s = [] := by by_contra hx; exact hne hx
      subst hnil
      simp [processFragment, pyWords, wordsAux]

theorem processFragment_shape (s : Str) :
    ∀ l ∈ processFragment s, l ≠ [] ∧ (l.length ≤ 15 ∨ ∀ c ∈ l, isWs c = false) := by
  intro l hl
  by_cases hcond : s ≠ [] ∧ s.length > 15
  · have hprops : ∀ w ∈ ([] : List Str) ++ pyWords s, w ≠ [] ∧ ∀ c ∈ w, isWs c = false := by
      intro w hw
      exact pyWords_mem (by simpa using hw)
    have hshape := greedyLoop_shape (pyWords s) [] hprops (Or.inl (by simp))
    simp only [processFragment, if_pos hcond] at hl
    by_cases hfin : (greedyLoop [] (pyWords s)).2 ≠ []
    · rw [if_pos hfin] at hl
      rcases List.mem_append.mp hl with h1 | h1
      · exact hshape.1 l h1
      · have hleq : l = joinWith [' '] (greedyLoop [] (pyWords s)).2 :=
          List.mem_singleton.mp h1
        have hfinprops : ∀ w ∈ (greedyLoop [] (pyWords s)).2,
            w ≠ [] ∧ ∀ c ∈ w, isWs c = false := by
          intro w hw
          exact pyWords_mem (by simpa using hshape.2.2 w hw)
        rcases h2 : (greedyLoop [] (pyWords s)).2 with _ | ⟨x, t⟩
        · exact absurd h2 hfin
        · have hx := hfinprops x (by simp [h2])
          constructor
          · rw [hleq, h2]
            exact joinWith_ne_nil _ hx.1
          · rcases hshape.2.1 with hlen | hle
            · right
              rw [h2] at hlen
              have ht : t = [] := by
                rcases t with _ | ⟨y, t2⟩
                · rfl
                · simp at hlen
              subst ht
              rw [hleq, h2]
              intro c hc
              exact hx.2 c (by simpa [joinWith] using hc)
            · left
              rw [hleq]
              exact hle
    · rw [if_neg hfin] at hl
      rcases List.mem_append.mp hl with h1 | h1
      · exact hshape.1 l h1
      · simp at h1
  · by_cases hne : s ≠ []
    · simp only [processFragment, if_neg hcond, if_pos hne, List.mem_singleton] at hl
      subst hl
      refine ⟨hne, Or.inl ?_⟩
      rcases le_or_lt l.length 15 with h | h
      · exact h
      · exact absurd ⟨hne, h⟩ hcond
    · have hnil : s = [] := by by_contra hx; exact hne hx
      subst hnil
      simp [processFragment] at hl

theorem reflow_pieces_words :
    ∀ (ps : List Str),
      ((((ps.map (fun s => processFragment (pyStrip s))).flatten).map pyWords).flatten)
        = (ps.map pyWords).flatten := by
  intro ps
  induction ps with
  | nil => rfl
  | cons p t ih =>
    simp only [List.map_cons, List.flatten_cons, List.map_append, List.flatten_append]
    rw [ih, processFragment_words, pyWords_strip]

theorem reflowLines_words (content : Str) :
    ((reflowLines content).map pyWords).flatten = pyWords (punctuated content) := by
  unfold reflowLines
  rw [reflow_pieces_words]
  rw [← @pyWords_joinWith_ws '\n' (by decide) (splitNl (punctuated content))]
  rw [joinWith_splitNl]

theorem reflowLines_shape (content : Str) :
    ∀ l ∈ reflowLines content, l ≠ [] ∧ (l.length ≤ 15 ∨ ∀ c ∈ l, isWs c = false) := by
  intro l hl
  unfold reflowLines at hl
  rcases List.mem_flatten.mp hl with ⟨piece, hpiece, hmem⟩
  rcases List.mem_map.mp hpiece with ⟨s, _, hs⟩
  exact processFragment_shape (pyStrip s) l (hs ▸ hmem)

theorem addSpacingAux_filter (total : Nat) :
    ∀ (ls : List Str) (i : Nat),
      (addSpacingAux total i ls).filter (fun l => !l.isEmpty)
        = ls.filter (fun l => !l.isEmpty) := by
  intro ls
  induction ls with
  | nil => intro i; rfl
  | cons l t ih =>
    intro i
    by_cases hc : (i + 1) % 2 = 0 ∧ i < total - 1
    · simp only [addSpacingAux, if_pos hc]
      rw [List.filter_cons, List.filter_cons, List.filter_cons]
      simp only [List.isEmpty_nil]
      rw [ih]
      simp
    · simp only [addSpacingAux, if_neg hc]
      rw [List.filter_cons, List.filter_cons]
      rw [ih]

theorem addSpacingAux_mem (total : Nat) :
    ∀ (ls : List Str) (i : Nat) (l : Str), l ∈ addSpacingAux total i ls → l = [] ∨ l ∈ ls := by
  intro ls
  induction ls with
  | nil => intro i l hl; simp [addSpacingAux] at hl
  | cons x t ih =>
    intro i l hl
    by_cases hc : (i + 1) % 2 = 0 ∧ i < total - 1
    · simp only [addSpacingAux, if_pos hc] at hl
      rcases List.mem_cons.mp hl with h1 | h1
      · exact Or.inr (by simp [h1])
      · rcases List.mem_cons.mp h1 with h2 | h2
        · exact Or.inl h2
        · rcases ih (i + 1) l h2 with h3 | h3
          · exact Or.inl h3
          · exact Or.inr (by simp [h3])
    · simp only [addSpacingAux, if_neg hc] at hl
      rcases List.mem_cons.mp hl with h1 | h1
      · exact Or.inr (by simp [h1])
      · rcases ih (i + 1) l h1 with h3 | h3
        · exact Or.inl h3
        · exact Or.inr (by simp [h3])

end WebUiServer

/-- Whitespace normalisation in the sense of the round-trip claim: collapse
every whitespace run into a single space and trim both ends. -/
def normWs (l : Str) : Str := joinWith [' '] (pyWords l)

/-- C6: every non-blank line the Reflow Formatter emits has length at most
15 characters unless it is a single word (it then contains no whitespace at
all); equivalently, every emitted line containing a space has length at
most 15. -/
theorem c6_reflow_line_length (content : String) (l : Str)
    (hl : l ∈ WebUiServer.format_linkedin_post_lines content) :
    (15 < l.length → ∀ c ∈ l, isWs c = false) ∧ (' ' ∈ l → l.length ≤ 15) := by
  rcases WebUiServer.addSpacingAux_mem _ _ _ _ hl with hnil | hmem
  · subst hnil
    constructor
    · intro h
      simp at h
    · intro h
      simp at h
  · have hshape := WebUiServer.reflowLines_shape content.data l hmem
    constructor
    · intro hlen
      rcases hshape.2 with h1 | h1
      · omega
      · exact h1
    · intro hsp
      rcases hshape.2 with h1 | h1
      · exact h1
      · have := h1 ' ' hsp
        simp [isWs] at this

/-- Witness for C6 at a concrete input: the line "one two three" emitted
for the post "one two three four five" contains spaces and is within the
15-character limit. -/
theorem c6_reflow_line_length_witness :
    ("one two three".data ∈ WebUiServer.format_linkedin_post_lines "one two three four five")
    ∧ ((15 < "one two three".data.length → ∀ c ∈ "one two three".data, isWs c = false)
        ∧ (' ' ∈ "one two three".data → "one two three".data.length ≤ 15)) :=
  ⟨by decide, c6_reflow_line_length "one two three four five" "one two three".data (by decide)⟩

/-- C7 counterexample: on the input "a.b" the Reflow Formatter emits the
lines "a." and "b", whose space-joined concatenation "a. b" is not equal
to the original content even after whitespace normalisation, because the
sentence split inserted a break inside the word "a.b". -/
theorem c7_reflow_roundtrip_counterexample :
    normWs (joinWith [' ']
        ((WebUiServer.format_linkedin_post_lines "a.b").filter (fun l => !l.isEmpty)))
      ≠ normWs "a.b".data := by decide

/-- C7 as amended: concatenating the non-empty output lines with single
spaces reproduces the original content up to whitespace (the sequence of
non-whitespace characters is preserved exactly), and reproduces the
punctuation-split content modulo whitespace normalisation: the emitted
word sequence is exactly the word sequence of the content after the
sentence-splitting newline insertion, so no word of a fragment is dropped,
duplicated or reordered. -/
theorem c7_reflow_roundtrip (content : String) :
    dropWs (joinWith [' ']
        ((WebUiServer.format_linkedin_post_lines content).filter (fun l => !l.isEmpty)))
      = dropWs content.data
    ∧ pyWords (joinWith [' ']
        ((WebUiServer.format_linkedin_post_lines content).filter (fun l => !l.isEmpty)))
      = pyWords (WebUiServer.punctuated content.data) := by
  have hfilter : (WebUiServer.format_linkedin_post_lines content).filter (fun l => !l.isEmpty)
      = WebUiServer.reflowLines content.data := by
    unfold WebUiServer.format_linkedin_post_lines
    rw [WebUiServer.addSpacingAux_filter]
    rw [List.filter_eq_self.mpr]
    intro a ha
    have := (WebUiServer.reflowLines_shape content.data a ha).1
    simpa [List.isEmpty_iff]
  have hwords : pyWords (joinWith [' ']
      ((WebUiServer.format_linkedin_post_lines content).filter (fun l => !l.isEmpty)))
      = pyWords (WebUiServer.punctuated content.data) := by
    rw [hfilter]
    rw [@pyWords_joinWith_ws ' ' (by decide) (WebUiServer.reflowLines content.data)]
    exact WebUiServer.reflowLines_words content.data
  refine ⟨?_, hwords⟩
  rw [← pyWords_join, ← pyWords_join, hwords]
  rw [pyWords_join, pyWords_join]
  unfold WebUiServer.punctuated
  rw [dropWs_replaceAfter '?' (by decide), dropWs_replaceAfter '!' (by decide),
    dropWs_replaceAfter '.' (by decide)]

namespace LinkedinAgentExample

/-- General hashtags that work well. -/
def general_hashtags : List String :=
  ["#LinkedIn", "#Professional", "#Career", "#Business", "#Growth"]

/-- Industry-specific hashtags, in the dict order of the source. -/
def industry_hashtags : List (String × List String) :=
  [("tech", ["#Technology", "#Innovation", "#AI", "#Software", "#TechTrends"]),
   ("marketing", ["#Marketing", "#DigitalMarketing", "#ContentMarketing", "#Branding",
      "#SocialMedia"]),
   ("leadership", ["#Leadership", "#Management", "#TeamBuilding", "#ExecutiveCoaching",
      "#WorkplaceCulture"]),
   ("entrepreneurship", ["#Entrepreneur", "#Startup", "#SmallBusiness", "#Innovation",
      "#BusinessGrowth"]),
   ("finance", ["#Finance", "#Investing", "#FinTech", "#Banking", "#Economics"]),
   ("sales", ["#Sales", "#B2B", "#CustomerSuccess", "#SalesStrategy", "#Networking"]),
   ("hr", ["#HumanResources", "#Recruiting", "#TalentAcquisition", "#WorkplaceCulture",
      "#EmployeeEngagement"]),
   ("consulting", ["#Consulting", "#Strategy", "#BusinessConsulting", "#ProfessionalServices",
      "#Advisory"])]

/-- The topic keyword rules of suggest_hashtags, in declared order: each
rule fires when any of its trigger substrings occurs in the lower-cased
topic, and then contributes its hashtag list. -/
def topic_rules : List (List String × List String) :=
  [(["learn", "education"], ["#Learning", "#ProfessionalDevelopment", "#SkillBuilding"]),
   (["success", "achievement"], ["#Success", "#Achievement", "#Goals"]),
   (["team", "collaboration"], ["#Teamwork", "#Collaboration", "#TeamSuccess"]),
   (["tip", "advice"], ["#Tips", "#Advice", "#BestPractices"])]

/-- Python dict.get with default empty list. -/
def dictGet (d : List (String × List String)) (k : String) : List String :=
  (d.lookup k).getD []

/-- The list named suggested in suggest_hashtags: hashtags collected from
the topic keyword rules that match the lower-cased topic. -/
def topicSuggested (topic : String) : List String :=
  ((topic_rules.filter (fun r => r.1.any (fun t => pyIn t (lowerStr topic)))).map
    (fun r => r.2)).flatten

/-- The concatenation assembled into final_hashtags before deduplication. -/
def rawHashtags (topic industry : String) : List String :=
  (dictGet industry_hashtags (lowerStr industry)).take 2
    ++ (topicSuggested topic).take 2 ++ general_hashtags.take 1

/-- The hashtag list computed by suggest_hashtags (the source renders it
as a single space-joined string, see suggest_hashtags_report). -/
def suggest_hashtags (topic industry : String) : List String :=
  (dedupFirst (rawHashtags topic industry)).take 5

/-- The full string returned by suggest_hashtags. -/
def suggest_hashtags_report (topic industry : String) : String :=
  "Recommended hashtags: " ++ joinWithStr " " (suggest_hashtags topic industry)

theorem rawHashtags_length_le (topic industry : String) :
    (rawHashtags topic industry).length ≤ 5 := by
  unfold rawHashtags
  rw [List.length_append, List.length_append]
  have h1 := List.length_take_le 2 (dictGet industry_hashtags (lowerStr industry))
  have h2 := List.length_take_le 2 (topicSuggested topic)
  have h3 := List.length_take_le 1 general_hashtags
  omega

/-- C1: the Hashtag Recommender always returns at most 5 hashtags, with no
duplicates, deduplicated preserving first occurrence over the
concatenation industry-catalog-prefix ++ topic-rule-prefix ++ general-head
(the final truncation to 5 never removes anything); on the two concrete
inputs of the spec it returns the enumerated ordered lists. -/
theorem c1_hashtag_recommender (topic industry : String) :
    (suggest_hashtags topic industry).length ≤ 5
    ∧ (suggest_hashtags topic industry).Nodup
    ∧ suggest_hashtags topic industry = dedupFirst (rawHashtags topic industry)
    ∧ suggest_hashtags "team success tips" "tech"
        = ["#Technology", "#Innovation", "#Success", "#Achievement", "#LinkedIn"]
    ∧ (suggest_hashtags "" "unknown-industry").length ≤ 1 := by
  have hlen : (dedupFirst (rawHashtags topic industry)).length ≤ 5 :=
    le_trans (dedupFirst_length_le _) (rawHashtags_length_le topic industry)
  have htake : suggest_hashtags topic industry = dedupFirst (rawHashtags topic industry) :=
    take_of_len_le _ _ hlen
  refine ⟨?_, ?_, htake, by decide, by decide⟩
  · rw [htake]
    exact hlen
  · rw [htake]
    exact dedupFirst_nodup _

/-- C10: the first general hashtag "#LinkedIn" is always appended, occurs
in no industry catalog entry and in no topic rule, and survives both the
deduplication and the truncation to 5, so the recommendation is never
empty. -/
theorem c10_hashtag_recommender_nonempty (topic industry : String) :
    "#LinkedIn" ∈ suggest_hashtags topic industry
    ∧ suggest_hashtags topic industry ≠ []
    ∧ (industry_hashtags.all (fun p => !p.2.contains "#LinkedIn")) = true
    ∧ (topic_rules.all (fun r => !r.2.contains "#LinkedIn")) = true := by
  have hlen : (dedupFirst (rawHashtags topic industry)).length ≤ 5 :=
    le_trans (dedupFirst_length_le _) (rawHashtags_length_le topic industry)
  have htake : suggest_hashtags topic industry = dedupFirst (rawHashtags topic industry) :=
    take_of_len_le _ _ hlen
  have hmem : "#LinkedIn" ∈ suggest_hashtags topic industry := by
    rw [htake]
    refine dedupFirst_mem _ _ ?_
    unfold rawHashtags
    refine List.mem_append.mpr (Or.inr ?_)
    decide
  refine ⟨hmem, ?_, by decide, by decide⟩
  intro hnil
  rw [hnil] at hmem
  simp at hmem

end LinkedinAgentExample

namespace LinkedinAgentExample

/-- First-person narrative phrases checked by the engagement scorer. -/
def personal_indicators : List String :=
  ["I learned", "My experience", "When I", "I discovered", "I realized"]

/-- Action and advice words checked by the engagement scorer. -/
def action_words : List String :=
  ["tip", "strategy", "how to", "step", "method", "technique"]

/-- Check 1 of check_engagement_potential: a question mark occurs. -/
def hasQuestion (content : String) : Bool := pyIn "?" content

/-- Check 2: one of the personal indicators occurs, case-insensitively. -/
def hasPersonal (content : String) : Bool :=
  personal_indicators.any (fun ind => pyIn (lowerStr ind) (lowerStr content))

/-- Check 3: one of the action words occurs in the lower-cased content. -/
def hasAction (content : String) : Bool :=
  action_words.any (fun word => pyIn word (lowerStr content))

/-- Check 4: a double newline occurs. -/
def hasParagraphBreak (content : String) : Bool := pyIn "\n\n" content

/-- Check 5: the character length lies in the inclusive range 1300..3000. -/
def hasOptimalLength (content : String) : Bool :=
  decide (1300 ≤ content.data.length) && decide (content.data.length ≤ 3000)

/-- The score and ordered feedback list built by check_engagement_potential
(the source renders them into a report string, see engagement_report). -/
def check_engagement_potential (content : String) : Nat × List String :=
  let score : Nat := 0
  let feedback : List String := []
  let score := if hasQuestion content then score + 20 else score
  let feedback := feedback
    ++ [if hasQuestion content then "✅ Contains questions (encourages comments)"
        else "❌ No questions found - add questions to encourage engagement"]
  let score := if hasPersonal content then score + 25 else score
  let feedback := feedback
    ++ [if hasPersonal content then "✅ Includes personal experience (builds connection)"
        else "⚠️ Consider adding personal experience or story"]
  let score := if hasAction content then score + 20 else score
  let feedback := feedback
    ++ [if hasAction content then "✅ Contains actionable content"
        else "⚠️ Consider adding actionable tips or insights"]
  let score := if hasParagraphBreak content then score + 15 else score
  let feedback := feedback
    ++ [if hasParagraphBreak content then "✅ Good paragraph breaks"
        else "❌ Needs better paragraph formatting"]
  let score := if hasOptimalLength content then score + 20 else score
  let feedback := feedback
    ++ [if hasOptimalLength content then "✅ Optimal length"
        else "❌ Length needs adjustment"]
  (score, feedback)

/-- The engagement level determined from the score. -/
def engagement_level (score : Nat) : String :=
  if score ≥ 80 then "HIGH"
  else if score ≥ 60 then "MEDIUM-HIGH"
  else if score ≥ 40 then "MEDIUM"
  else "LOW"

/-- The full string returned by check_engagement_potential. -/
def engagement_report (content : String) : String :=
  "Engagement Score: " ++ toString (check_engagement_potential content).1 ++ "/100 ("
    ++ engagement_level (check_engagement_potential content).1 ++ ")\n\nFeedback:\n"
    ++ joinWithStr "\n" (check_engagement_potential content).2

/-- A concrete post exercising every engagement check: it contains a
question mark, the phrase "When I", the action word "tip", a paragraph
break, and has exactly 1500 characters. -/
def engagementFullExample : String :=
  String.mk ("When I tip?\n\n".data ++ List.replicate 1487 'a')

end LinkedinAgentExample

/-- C3: the Engagement Scorer always returns exactly 5 feedback entries in
the fixed check order, each entry being the pass or the fail text of its
check; any content passing all five checks with length exactly 1500 scores
100 with level HIGH; the empty string scores 0 with level LOW and all 5
fail entries present in order. -/
theorem c3_engagement_scorer (content : String) :
    ((LinkedinAgentExample.check_engagement_potential content).2.length = 5
      ∧ ((LinkedinAgentExample.check_engagement_potential content).2.getD 0 ""
            = "✅ Contains questions (encourages comments)"
          ∨ (LinkedinAgentExample.check_engagement_potential content).2.getD 0 ""
            = "❌ No questions found - add questions to encourage engagement")
      ∧ ((LinkedinAgentExample.check_engagement_potential content).2.getD 1 ""
            = "✅ Includes personal experience (builds connection)"
          ∨ (LinkedinAgentExample.check_engagement_potential content).2.getD 1 ""
            = "⚠️ Consider adding personal experience or story")
      ∧ ((LinkedinAgentExample.check_engagement_potential content).2.getD 2 ""
            = "✅ Contains actionable content"
          ∨ (LinkedinAgentExample.check_engagement_potential content).2.getD 2 ""
            = "⚠️ Consider adding actionable tips or insights")
      ∧ ((LinkedinAgentExample.check_engagement_potential content).2.getD 3 ""
            = "✅ Good paragraph breaks"
          ∨ (LinkedinAgentExample.check_engagement_potential content).2.getD 3 ""
            = "❌ Needs better paragraph formatting")
      ∧ ((LinkedinAgentExample.check_engagement_potential content).2.getD 4 ""
            = "✅ Optimal length"
          ∨ (LinkedinAgentExample.check_engagement_potential content).2.getD 4 ""
            = "❌ Length needs adjustment"))
    ∧ (LinkedinAgentExample.hasQuestion content = true →
        LinkedinAgentExample.hasPersonal content = true →
        LinkedinAgentExample.hasAction content = true →
        LinkedinAgentExample.hasParagraphBreak content = true →
        content.data.length = 1500 →
        (LinkedinAgentExample.check_engagement_potential content).1 = 100
          ∧ LinkedinAgentExample.engagement_level
              (LinkedinAgentExample.check_engagement_potential content).1 = "HIGH")
    ∧ (LinkedinAgentExample.check_engagement_potential "" =
        (0, ["❌ No questions found - add questions to encourage engagement",
             "⚠️ Consider adding personal experience or story",
             "⚠️ Consider adding actionable tips or insights",
             "❌ Needs better paragraph formatting",
             "❌ Length needs adjustment"])
        ∧ LinkedinAgentExample.engagement_level
            (LinkedinAgentExample.check_engagement_potential "").1 = "LOW") := by
  refine ⟨?_, ?_, by decide, by decide⟩
  · simp only [LinkedinAgentExample.check_engagement_potential]
    cases LinkedinAgentExample.hasQuestion content
      <;> cases LinkedinAgentExample.hasPersonal content
      <;> cases LinkedinAgentExample.hasAction content
      <;> cases LinkedinAgentExample.hasParagraphBreak content
      <;> cases LinkedinAgentExample.hasOptimalLength content
      <;> simp
  · intro h1 h2 h3 h4 h5
    have h5opt : LinkedinAgentExample.hasOptimalLength content = true := by
      simp [LinkedinAgentExample.hasOptimalLength, h5]
    simp only [LinkedinAgentExample.check_engagement_potential, h1, h2, h3, h4, h5opt,
      if_true]
    exact ⟨by decide, by decide⟩

set_option maxRecDepth 100000 in
/-- Witness for C3 at the concrete 1500-character example post. -/
theorem c3_engagement_scorer_witness :
    LinkedinAgentExample.hasQuestion LinkedinAgentExample.engagementFullExample = true
    ∧ LinkedinAgentExample.hasPersonal LinkedinAgentExample.engagementFullExample = true
    ∧ LinkedinAgentExample.hasAction LinkedinAgentExample.engagementFullExample = true
    ∧ LinkedinAgentExample.hasParagraphBreak LinkedinAgentExample.engagementFullExample = true
    ∧ LinkedinAgentExample.engagementFullExample.data.length = 1500
    ∧ ((LinkedinAgentExample.check_engagement_potential
          LinkedinAgentExample.engagementFullExample).1 = 100
        ∧ LinkedinAgentExample.engagement_level
            (LinkedinAgentExample.check_engagement_potential
              LinkedinAgentExample.engagementFullExample).1 = "HIGH") :=
  ⟨by decide, by decide, by decide, by decide, by decide,
    (c3_engagement_scorer LinkedinAgentExample.engagementFullExample).2.1
      (by decide) (by decide) (by decide) (by decide) (by decide)⟩

/-- C9: an engagement level of HIGH (score at least 80) is only reachable
when the personal-experience check passed, because the other four weights
sum to 75. -/
theorem c9_high_needs_personal (content : String)
    (h : 80 ≤ (LinkedinAgentExample.check_engagement_potential content).1) :
    LinkedinAgentExample.hasPersonal content = true := by
  cases hp : LinkedinAgentExample.hasPersonal content with
  | true => rfl
  | false =>
    exfalso
    simp only [LinkedinAgentExample.check_engagement_potential, hp, Bool.false_eq_true,
      if_false] at h
    split_ifs at h <;> omega

/-- Witness for C9: the post "When I tip?" followed by a paragraph break
scores exactly 80, and indeed contains a personal indicator. -/
theorem c9_high_needs_personal_witness :
    80 ≤ (LinkedinAgentExample.check_engagement_potential "When I tip?\n\n").1
    ∧ LinkedinAgentExample.hasPersonal "When I tip?\n\n" = true :=
  ⟨by decide, c9_high_needs_personal "When I tip?\n\n" (by decide)⟩

namespace WebUiServer

/-- General hashtags that work well (web_ui_server copy). -/
def general_hashtags : List String :=
  ["#LinkedIn", "#Professional", "#Career", "#Business", "#Growth"]

/-- First-person narrative phrases checked by the engagement scorer
(web_ui_server copy, identical to the linkedin_agent_example one). -/
def personal_indicators : List String :=
  ["I learned", "My experience", "When I", "I discovered", "I realized"]

/-- Action and advice words checked by the engagement scorer. -/
def action_words : List String :=
  ["tip", "strategy", "how to", "step", "method", "technique"]

/-- Check 1 of check_engagement_potential: a question mark occurs. -/
def hasQuestion (content : String) : Bool := pyIn "?" content

/-- Check 2: one of the personal indicators occurs, case-insensitively. -/
def hasPersonal (content : String) : Bool :=
  personal_indicators.any (fun ind => pyIn (lowerStr ind) (lowerStr content))

/-- Check 3: one of the action words occurs in the lower-cased content. -/
def hasAction (content : String) : Bool :=
  action_words.any (fun word => pyIn word (lowerStr content))

/-- Check 4: a double newline occurs. -/
def hasParagraphBreak (content : String) : Bool := pyIn "\n\n" content

/-- Check 5: the character length lies in the inclusive range 1300..3000. -/
def hasOptimalLength (content : String) : Bool :=
  decide (1300 ≤ content.data.length) && decide (content.data.length ≤ 3000)

/-- The score and ordered feedback list built by check_engagement_potential
in web_ui_server (same checks and weights as the linkedin_agent_example
copy). -/
def check_engagement_potential (content : String) : Nat × List String :=
  let score : Nat := 0
  let feedback : List String := []
  let score := if hasQuestion content then score + 20 else score
  let feedback := feedback
    ++ [if hasQuestion content then "✅ Contains questions (encourages comments)"
        else "❌ No questions found - add questions to encourage engagement"]
  let score := if hasPersonal content then score + 25 else score
  let feedback := feedback
    ++ [if hasPersonal content then "✅ Includes personal experience (builds connection)"
        else "⚠️ Consider adding personal experience or story"]
  let score := if hasAction content then score + 20 else score
  let feedback := feedback
    ++ [if hasAction content then "✅ Contains actionable content"
        else "⚠️ Consider adding actionable tips or insights"]
  let score := if hasParagraphBreak content then score + 15 else score
  let feedback := feedback
    ++ [if hasParagraphBreak content then "✅ Good paragraph breaks"
        else "❌ Needs better paragraph formatting"]
  let score := if hasOptimalLength content then score + 20 else score
  let feedback := feedback
    ++ [if hasOptimalLength content then "✅ Optimal length"
        else "❌ Length needs adjustment"]
  (score, feedback)

/-- The engagement level determined from the score. -/
def engagement_level (score : Nat) : String :=
  if score ≥ 80 then "HIGH"
  else if score ≥ 60 then "MEDIUM-HIGH"
  else if score ≥ 40 then "MEDIUM"
  else "LOW"

/-- A line is blank when Python line.strip() is empty, i.e. all its
characters are whitespace. -/
def isBlankLine (l : Str) : Bool := l.all isWs

/-- The list named long_lines in validate_linkedin_formatting: non-blank
lines longer than 80 characters. -/
def longLines (content : String) : List Str :=
  (splitNl content.data).filter (fun line => decide (line.length > 80) && !isBlankLine line)

/-- The hook check of validate_linkedin_formatting: the line list is
non-empty and the first line is shorter than 60 characters. -/
def hookOk (content : String) : Bool :=
  !(splitNl content.data).isEmpty && decide (((splitNl content.data).headD []).length < 60)

/-- The number of blank lines (the source collects their indices and then
only uses the count). -/
def emptyLinesCount (content : String) : Nat :=
  ((splitNl content.data).filter (fun line => isBlankLine line)).length

/-- The call-to-action indicator set of validate_linkedin_formatting. -/
def cta_indicators : List String := ["?", "comment", "share", "thoughts", "experience", "story"]

/-- The CTA check: one of the indicators occurs in the lower-cased content. -/
def hasCta (content : String) : Bool :=
  cta_indicators.any (fun ind => pyIn ind (lowerStr content))

/-- The PS check: a literal "PS:" or "P.S." occurs. -/
def hasPs (content : String) : Bool := pyIn "PS:" content || pyIn "P.S." content

/-- The character-limit check: at most 2500 characters. -/
def underLimit (content : String) : Bool := decide (content.data.length ≤ 2500)

/-- The score and ordered feedback list built by
validate_linkedin_formatting. -/
def validate_linkedin_formatting (content : String) : Nat × List String :=
  let score : Nat := 0
  let feedback : List String := []
  let score := if (longLines content).length > 2 then score else score + 20
  let feedback := feedback
    ++ [if (longLines content).length > 2
        then "❌ Too many long lines. Break thoughts into shorter lines (max 80 chars)"
        else "✅ Good line length - thoughts broken into digestible pieces"]
  let score := if hookOk content then score + 20 else score
  let feedback := feedback
    ++ [if hookOk content then "✅ Strong hook - first line is concise and impactful"
        else "❌ Hook too long - first line should be under 60 characters"]
  let score := if emptyLinesCount content ≥ 2 then score + 15 else score
  let feedback := feedback
    ++ [if emptyLinesCount content ≥ 2 then "✅ Good use of white space between sections"
        else "❌ Need more white space - add empty lines between sections"]
  let score := if hasCta content then score + 20 else score
  let feedback := feedback
    ++ [if hasCta content then "✅ Clear call-to-action present"
        else "❌ Missing call-to-action - add questions or engagement prompts"]
  let score := if hasPs content then score + 15 else score
  let feedback := feedback
    ++ [if hasPs content then "✅ PS section included"
        else "❌ Missing PS section - add postscript for extra engagement"]
  let score := if underLimit content then score + 10 else score
  let feedback := feedback
    ++ [if underLimit content then "✅ Under 2,500 character limit"
        else "❌ Over 2,500 character limit - needs to be shortened"]
  (score, feedback)

/-- The full string returned by validate_linkedin_formatting. -/
def formatting_report (content : String) : String :=
  "Formatting Score: " ++ toString (validate_linkedin_formatting content).1
    ++ "/100\n\nFormatting Analysis:\n"
    ++ joinWithStr "\n" (validate_linkedin_formatting content).2

end WebUiServer

/-- The concrete input of C2: first line 70 characters, one 90-character
line, then thirty-five 80-character lines and a final 3-character line; no
blank lines, no CTA indicator, no PS, 3000 characters in total. -/
def c2Input : String :=
  String.mk (List.replicate 70 'a' ++ '\n' :: List.replicate 90 'b'
    ++ '\n' :: (List.replicate 35 (List.replicate 80 'd' ++ ['\n'])).flatten
    ++ List.replicate 3 'c')

theorem splitNl_first_block : ∀ (a : Str), '\n' ∉ a →
    ∀ rest, splitNl (a ++ '\n' :: rest) = a :: splitNl rest := by
  intro a
  induction a with
  | nil => intro _ rest; simp [splitNl]
  | cons c a ih =>
    intro h rest
    have hc : ¬(c = '\n') := by
      intro hx
      exact h (by simp [hx])
    have ha : '\n' ∉ a := fun hx => h (by simp [hx])
    rw [List.cons_append]
    simp only [splitNl, if_neg hc]
    rw [ih ha rest]

theorem splitNl_no_nl : ∀ (a : Str), '\n' ∉ a → splitNl a = [a] := by
  intro a
  induction a with
  | nil => intro _; rfl
  | cons c a ih =>
    intro h
    have hc : ¬(c = '\n') := by
      intro hx
      exact h (by simp [hx])
    have ha : '\n' ∉ a := fun hx => h (by simp [hx])
    simp only [splitNl, if_neg hc, ih ha]

theorem splitNl_rep_blocks (d : Str) (hd : '\n' ∉ d) :
    ∀ (n : Nat) (rest : Str),
      splitNl ((List.replicate n (d ++ ['\n'])).flatten ++ rest)
        = List.replicate n d ++ splitNl rest := by
  intro n
  induction n with
  | zero => intro rest; simp
  | succ m ih =>
    intro rest
    simp only [List.replicate_succ, List.flatten_cons]
    rw [List.append_assoc, List.append_assoc]
    have : ('\n' : Char) :: ((List.replicate m (d ++ ['\n'])).flatten ++ rest)
        = ['\n'] ++ ((List.replicate m (d ++ ['\n'])).flatten ++ rest) := rfl
    rw [← this]
    rw [splitNl_first_block d hd, ih]
    rfl

theorem flatten_replicate_length (x : Str) :
    ∀ n, (List.replicate n x).flatten.length = n * x.length := by
  intro n
  induction n with
  | zero => simp
  | succ m ih =>
    simp only [List.replicate_succ, List.flatten_cons, List.length_append, ih]
    ring

theorem hasPrefixStr_mem : ∀ (n h : Str), hasPrefixStr n h = true → ∀ c ∈ n, c ∈ h := by
  intro n
  induction n with
  | nil => intro h _ c hc; simp at hc
  | cons x n ih =>
    intro h hp c hc
    cases h with
    | nil => simp [hasPrefixStr] at hp
    | cons d h2 =>
      simp only [hasPrefixStr, Bool.and_eq_true, beq_iff_eq] at hp
      rcases List.mem_cons.mp hc with h1 | h1
      · rw [h1, hp.1]
        exact List.mem_cons_self _ _
      · exact List.mem_cons_of_mem _ (ih h2 hp.2 c h1)

theorem containsStr_mem : ∀ (h n : Str), containsStr n h = true → ∀ c ∈ n, c ∈ h := by
  intro h
  induction h with
  | nil =>
    intro n hc c hcn
    simp only [containsStr, List.isEmpty_iff] at hc
    subst hc
    simp at hcn
  | cons d h2 ih =>
    intro n hc c hcn
    simp only [containsStr, Bool.or_eq_true] at hc
    rcases hc with h1 | h1
    · exact hasPrefixStr_mem n _ h1 c hcn
    · exact List.mem_cons_of_mem _ (ih n h1 c hcn)

theorem c2Input_data : c2Input.data
    = List.replicate 70 'a' ++ '\n' :: List.replicate 90 'b'
      ++ '\n' :: (List.replicate 35 (List.replicate 80 'd' ++ ['\n'])).flatten
      ++ List.replicate 3 'c' := rfl

theorem c2_char_mem : ∀ c ∈ c2Input.data,
    c = 'a' ∨ c = '\n' ∨ c = 'b' ∨ c = 'd' ∨ c = 'c' := by
  intro c hc
  rw [c2Input_data] at hc
  simp only [List.cons_append, List.append_assoc] at hc
  rcases List.mem_append.mp hc with h | h
  · exact Or.inl (List.eq_of_mem_replicate h)
  rcases List.mem_cons.mp h with h | h
  · exact Or.inr (Or.inl h)
  rcases List.mem_append.mp h with h | h
  · exact Or.inr (Or.inr (Or.inl (List.eq_of_mem_replicate h)))
  rcases List.mem_cons.mp h with h | h
  · exact Or.inr (Or.inl h)
  rcases List.mem_append.mp h with h | h
  · rcases List.mem_flatten.mp h with ⟨l, hl, hcl⟩
    have hleq := List.eq_of_mem_replicate hl
    subst hleq
    rcases List.mem_append.mp hcl with h2 | h2
    · exact Or.inr (Or.inr (Or.inr (Or.inl (List.eq_of_mem_replicate h2))))
    · exact Or.inr (Or.inl (List.mem_singleton.mp h2))
  · exact Or.inr (Or.inr (Or.inr (Or.inr (List.eq_of_mem_replicate h))))

theorem c2_lower : lowerStr c2Input = c2Input := by
  unfold lowerStr
  have hmap : c2Input.data.map Char.toLower = c2Input.data.map id := by
    refine List.map_congr_left ?_
    intro c hc
    rcases c2_char_mem c hc with h | h | h | h | h <;> subst h <;> decide
  rw [hmap, List.map_id]

theorem c2_no_char (x : Char)
    (hx : ¬(x = 'a' ∨ x = '\n' ∨ x = 'b' ∨ x = 'd' ∨ x = 'c')) : x ∉ c2Input.data := by
  intro hmem
  exact hx (c2_char_mem x hmem)

theorem c2_not_contains (needle : String) (x : Char) (hx : x ∈ needle.data)
    (hnot : x ∉ c2Input.data) : pyIn needle c2Input = false := by
  cases h : pyIn needle c2Input with
  | false => rfl
  | true => exact absurd (containsStr_mem _ _ h x hx) hnot

theorem c2_lines : splitNl c2Input.data
    = List.replicate 70 'a' :: List.replicate 90 'b'
      :: (List.replicate 35 (List.replicate 80 'd') ++ [List.replicate 3 'c']) := by
  rw [c2Input_data]
  simp only [List.cons_append, List.append_assoc]
  rw [splitNl_first_block _ (by decide), splitNl_first_block _ (by decide),
    splitNl_rep_blocks _ (by decide) 35, splitNl_no_nl _ (by decide)]

theorem c2_longLines : WebUiServer.longLines c2Input = [List.replicate 90 'b'] := by
  unfold WebUiServer.longLines
  rw [c2_lines]
  decide

theorem c2_hook : WebUiServer.hookOk c2Input = false := by
  unfold WebUiServer.hookOk
  rw [c2_lines]
  decide

theorem c2_empty : WebUiServer.emptyLinesCount c2Input = 0 := by
  unfold WebUiServer.emptyLinesCount
  rw [c2_lines]
  decide

theorem c2_cta : WebUiServer.hasCta c2Input = false := by
  unfold WebUiServer.hasCta WebUiServer.cta_indicators
  rw [c2_lower]
  simp only [List.any_cons, List.any_nil]
  rw [c2_not_contains "?" '?' (by decide) (c2_no_char '?' (by decide)),
    c2_not_contains "comment" 'o' (by decide) (c2_no_char 'o' (by decide)),
    c2_not_contains "share" 'h' (by decide) (c2_no_char 'h' (by decide)),
    c2_not_contains "thoughts" 't' (by decide) (c2_no_char 't' (by decide)),
    c2_not_contains "experience" 'x' (by decide) (c2_no_char 'x' (by decide)),
    c2_not_contains "story" 's' (by decide) (c2_no_char 's' (by decide))]
  rfl

theorem c2_ps : WebUiServer.hasPs c2Input = false := by
  unfold WebUiServer.hasPs
  rw [c2_not_contains "PS:" 'P' (by decide) (c2_no_char 'P' (by decide)),
    c2_not_contains "P.S." 'P' (by decide) (c2_no_char 'P' (by decide))]
  rfl

theorem c2_len : c2Input.data.length = 3000 := by
  rw [c2Input_data]
  simp only [List.cons_append, List.append_assoc, List.length_append, List.length_cons,
    List.length_replicate, flatten_replicate_length]
  norm_num

theorem c2_under : WebUiServer.underLimit c2Input = false := by
  unfold WebUiServer.underLimit
  rw [c2_len]
  decide

theorem c2_validate : WebUiServer.validate_linkedin_formatting c2Input
    = (20, ["✅ Good line length - thoughts broken into digestible pieces",
            "❌ Hook too long - first line should be under 60 characters",
            "❌ Need more white space - add empty lines between sections",
            "❌ Missing call-to-action - add questions or engagement prompts",
            "❌ Missing PS section - add postscript for extra engagement",
            "❌ Over 2,500 character limit - needs to be shortened"]) := by
  simp only [WebUiServer.validate_linkedin_formatting, c2_longLines, c2_hook, c2_empty,
    c2_cta, c2_ps, c2_under, List.length_cons, List.length_nil]
  norm_num

/-- C2 counterexample: a text with exactly one over-80-character line, a
70-character first line, no blank lines, no CTA indicator, no PS and total
length 3000 does NOT score 0: the single long line is within the allowance
of two, so the line-length check passes and awards 20 points. -/
theorem c2_formatting_zero_counterexample :
    ((splitNl c2Input.data).countP (fun l => decide (l.length > 80)) = 1
      ∧ ((splitNl c2Input.data).headD []).length = 70
      ∧ (splitNl c2Input.data).all (fun l => !WebUiServer.isBlankLine l) = true
      ∧ WebUiServer.hasCta c2Input = false
      ∧ WebUiServer.hasPs c2Input = false
      ∧ c2Input.data.length = 3000)
    ∧ (WebUiServer.validate_linkedin_formatting c2Input).1 ≠ 0 := by
  refine ⟨⟨?_, ?_, ?_, c2_cta, c2_ps, c2_len⟩, ?_⟩
  · rw [c2_lines]; decide
  · rw [c2_lines]; decide
  · rw [c2_lines]; decide
  · rw [c2_validate]; decide

/-- C2 as amended: on such a text the Formatting Validator returns 20, not
0: the long-line check passes (at most two over-80 lines and awards 20)
while the other five checks all fail. -/
theorem c2_formatting_score :
    ((splitNl c2Input.data).countP (fun l => decide (l.length > 80)) = 1
      ∧ ((splitNl c2Input.data).headD []).length = 70
      ∧ (splitNl c2Input.data).all (fun l => !WebUiServer.isBlankLine l) = true
      ∧ WebUiServer.hasCta c2Input = false
      ∧ WebUiServer.hasPs c2Input = false
      ∧ c2Input.data.length = 3000)
    ∧ WebUiServer.validate_linkedin_formatting c2Input
      = (20, ["✅ Good line length - thoughts broken into digestible pieces",
              "❌ Hook too long - first line should be under 60 characters",
              "❌ Need more white space - add empty lines between sections",
              "❌ Missing call-to-action - add questions or engagement prompts",
              "❌ Missing PS section - add postscript for extra engagement",
              "❌ Over 2,500 character limit - needs to be shortened"]) := by
  refine ⟨⟨?_, ?_, ?_, c2_cta, c2_ps, c2_len⟩, c2_validate⟩
  · rw [c2_lines]; decide
  · rw [c2_lines]; decide
  · rw [c2_lines]; decide

/-- C4: both scorers stay within 0..100: each check only adds its weight,
and the weights sum to exactly 100 (20+25+20+15+20 for the engagement
scorer, 20+20+15+20+15+10 for the formatting validator), so the score is
exactly 100 when every check passes and can never exceed it despite the
absence of clamping. -/
theorem c4_score_bounds (content : String) :
    (0 ≤ (WebUiServer.check_engagement_potential content).1
      ∧ (WebUiServer.check_engagement_potential content).1 ≤ 100)
    ∧ (0 ≤ (WebUiServer.validate_linkedin_formatting content).1
      ∧ (WebUiServer.validate_linkedin_formatting content).1 ≤ 100)
    ∧ (WebUiServer.hasQuestion content = true → WebUiServer.hasPersonal content = true →
        WebUiServer.hasAction content = true → WebUiServer.hasParagraphBreak content = true →
        WebUiServer.hasOptimalLength content = true →
        (WebUiServer.check_engagement_potential content).1 = 100)
    ∧ (¬((WebUiServer.longLines content).length > 2) → WebUiServer.hookOk content = true →
        WebUiServer.emptyLinesCount content ≥ 2 → WebUiServer.hasCta content = true →
        WebUiServer.hasPs content = true → WebUiServer.underLimit content = true →
        (WebUiServer.validate_linkedin_formatting content).1 = 100) := by
  refine ⟨⟨Nat.zero_le _, ?_⟩, ⟨Nat.zero_le _, ?_⟩, ?_, ?_⟩
  · simp only [WebUiServer.check_engagement_potential]
    split_ifs <;> simp
  · simp only [WebUiServer.validate_linkedin_formatting]
    split_ifs <;> simp
  · intro h1 h2 h3 h4 h5
    simp only [WebUiServer.check_engagement_potential, h1, h2, h3, h4, h5, if_true]
  · intro h1 h2 h3 h4 h5 h6
    simp only [WebUiServer.validate_linkedin_formatting, if_neg h1, h2, h3, h4, h5, h6,
      if_pos h3, if_true]

/-- A 1300-character post passing every engagement check. -/
def c4EngagementExample : String :=
  String.mk ("When I tip?\n\n".data ++ List.replicate 1287 'a')

/-- A short post passing every formatting check. -/
def c4FormattingExample : String := "Hi?\n\nPS: ok\n\nbye"

set_option maxRecDepth 100000 in
/-- Witness for C4: both maximal scores of 100 are attained, at a concrete
1300-character engagement example and a concrete well-formatted post. -/
theorem c4_score_bounds_witness :
    (WebUiServer.hasQuestion c4EngagementExample = true
      ∧ WebUiServer.hasPersonal c4EngagementExample = true
      ∧ WebUiServer.hasAction c4EngagementExample = true
      ∧ WebUiServer.hasParagraphBreak c4EngagementExample = true
      ∧ WebUiServer.hasOptimalLength c4EngagementExample = true
      ∧ (WebUiServer.check_engagement_potential c4EngagementExample).1 = 100)
    ∧ (¬((WebUiServer.longLines c4FormattingExample).length > 2)
      ∧ WebUiServer.hookOk c4FormattingExample = true
      ∧ WebUiServer.emptyLinesCount c4FormattingExample ≥ 2
      ∧ WebUiServer.hasCta c4FormattingExample = true
      ∧ WebUiServer.hasPs c4FormattingExample = true
      ∧ WebUiServer.underLimit c4FormattingExample = true
      ∧ (WebUiServer.validate_linkedin_formatting c4FormattingExample).1 = 100) :=
  ⟨⟨by decide, by decide, by decide, by decide, by decide,
      (c4_score_bounds c4EngagementExample).2.2.1 (by decide) (by decide) (by decide)
        (by decide) (by decide)⟩,
    ⟨by decide, by decide, by decide, by decide, by decide, by decide,
      (c4_score_bounds c4FormattingExample).2.2.2 (by decide) (by decide) (by decide)
        (by decide) (by decide) (by decide)⟩⟩

/-- C8 counterexample: on the empty string the Formatting Validator does
not fail every check: the long-line, hook and character-limit checks all
pass, the score is 50 rather than 0, and the first feedback entry is a
pass entry. -/
theorem c8_empty_counterexample :
    (WebUiServer.validate_linkedin_formatting "").1 = 50
    ∧ (WebUiServer.validate_linkedin_formatting "").1 ≠ 0
    ∧ (WebUiServer.validate_linkedin_formatting "").2.getD 0 ""
        = "✅ Good line length - thoughts broken into digestible pieces" :=
  ⟨by decide, by decide, by decide⟩

/-- C8 as amended: on the empty string the Engagement Scorer proceeds
through all five checks, fails each of them and returns score 0 with the
five fail entries, while the Formatting Validator passes its long-line,
hook and character-limit checks (the empty line list has no long line,
the first line is empty hence shorter than 60, and 0 characters is under
the limit) and returns score 50. -/
theorem c8_empty_string_behaviour :
    WebUiServer.check_engagement_potential ""
      = (0, ["❌ No questions found - add questions to encourage engagement",
             "⚠️ Consider adding personal experience or story",
             "⚠️ Consider adding actionable tips or insights",
             "❌ Needs better paragraph formatting",
             "❌ Length needs adjustment"])
    ∧ WebUiServer.engagement_level (WebUiServer.check_engagement_potential "").1 = "LOW"
    ∧ WebUiServer.validate_linkedin_formatting ""
      = (50, ["✅ Good line length - thoughts broken into digestible pieces",
              "✅ Strong hook - first line is concise and impactful",
              "❌ Need more white space - add empty lines between sections",
              "❌ Missing call-to-action - add questions or engagement prompts",
              "❌ Missing PS section - add postscript for extra engagement",
              "✅ Under 2,500 character limit"]) :=
  ⟨by decide, by decide, by decide⟩

namespace App

/-- The too-short message of the app.py length classifier. -/
def tooShortMsg (length : Nat) : String :=
  "Post is " ++ toString length
    ++ " characters - TOO SHORT. LinkedIn posts should be under 2,500 characters but with substantial content."

/-- The perfect-length message of the app.py length classifier. -/
def perfectMsg (length : Nat) : String :=
  "Post is " ++ toString length
    ++ " characters - PERFECT LENGTH. Under the 2,500 character limit!"

/-- The too-long message of the app.py length classifier. -/
def tooLongMsg (length : Nat) : String :=
  "Post is " ++ toString length
    ++ " characters - TOO LONG. Must be under 2,500 characters. Please shorten the content."

/-- analyze_post_length of app.py (the 2500-character hard-cap variant). -/
def analyze_post_length (content : String) : String :=
  let length := content.data.length
  if length < 300 then tooShortMsg length
  else if length ≤ 2500 then perfectMsg length
  else tooLongMsg length

end App

namespace StreamlitUi

/-- The too-short message of the streamlit_ui.py length classifier. -/
def tooShortMsg (length : Nat) : String :=
  "Post is " ++ toString length
    ++ " characters - TOO SHORT. LinkedIn posts should be 1300-3000 characters for optimal reach."

/-- The short-expand message of the streamlit_ui.py length classifier. -/
def shortMsg (length : Nat) : String :=
  "Post is " ++ toString length
    ++ " characters - SHORT. Consider expanding with more details, examples, or insights."

/-- The optimal-length message of the streamlit_ui.py length classifier. -/
def optimalMsg (length : Nat) : String :=
  "Post is " ++ toString length
    ++ " characters - OPTIMAL LENGTH. Perfect for LinkedIn engagement!"

/-- The too-long message of the streamlit_ui.py length classifier. -/
def tooLongMsg (length : Nat) : String :=
  "Post is " ++ toString length
    ++ " characters - TOO LONG. Consider breaking into multiple posts or cutting unnecessary content."

/-- analyze_post_length of streamlit_ui.py (the 1300..3000 optimal-window
variant, identical to the linkedin_agent_example one). -/
def analyze_post_length (content : String) : String :=
  let length := content.data.length
  if length < 300 then tooShortMsg length
  else if length < 1300 then shortMsg length
  else if length ≤ 3000 then optimalMsg length
  else tooLongMsg length

end StreamlitUi

/-- Length categories named by the spec across both threshold schemes. -/
inductive LengthClass where
  | tooShort
  | shortExpand
  | ideal
  | optimal
  | tooLong
deriving DecidableEq

/-- Scheme A as worded by the spec (2500-char hard cap): length under 300
is too short, 300..2500 inclusive is ideal, above 2500 is too long. -/
def schemeA_spec (n : Nat) : LengthClass :=
  if n < 300 then LengthClass.tooShort
  else if 300 ≤ n ∧ n ≤ 2500 then LengthClass.ideal
  else LengthClass.tooLong

/-- Scheme B as worded by the spec (1300..3000 optimal window): under 300
too short, 300..1299 short-expand, 1300..3000 optimal, above 3000 too
long. -/
def schemeB_spec (n : Nat) : LengthClass :=
  if n < 300 then LengthClass.tooShort
  else if 300 ≤ n ∧ n < 1300 then LengthClass.shortExpand
  else if 1300 ≤ n ∧ n ≤ 3000 then LengthClass.optimal
  else LengthClass.tooLong

/-- C5: the app.py classifier implements Scheme A exactly and the
streamlit_ui.py classifier implements Scheme B exactly: for every content
string, each returns precisely the message of the bucket the spec scheme
assigns to its character count, with the enumerated inclusive boundaries. -/
theorem c5_length_classifier_schemes (content : String) :
    App.analyze_post_length content
      = (if schemeA_spec content.data.length = LengthClass.tooShort
          then App.tooShortMsg content.data.length
         else if schemeA_spec content.data.length = LengthClass.ideal
          then App.perfectMsg content.data.length
         else App.tooLongMsg content.data.length)
    ∧ StreamlitUi.analyze_post_length content
      = (if schemeB_spec content.data.length = LengthClass.tooShort
          then StreamlitUi.tooShortMsg content.data.length
         else if schemeB_spec content.data.length = LengthClass.shortExpand
          then StreamlitUi.shortMsg content.data.length
         else if schemeB_spec content.data.length = LengthClass.optimal
          then StreamlitUi.optimalMsg content.data.length
         else StreamlitUi.tooLongMsg content.data.length) := by
  constructor
  · simp only [App.analyze_post_length, schemeA_spec]
    split_ifs <;> simp_all <;> omega
  · simp only [StreamlitUi.analyze_post_length, schemeB_spec]
    split_ifs <;> simp_all <;> omega
